import Mathlib

/-!
Verification of the Cloudflare R2 synchronisation utility
(`cloudflare_r2_upload.py`, `cloudflare_r2_delete.py`, `cloudflare_r2.py`,
`main.py`).  The Python sources are shallowly embedded below: the string
manipulation primitives (`str.replace`, `str.strip`, `str.split`,
`'/'.join`, the `in` substring test, `os.path.basename`) are modelled
character-list by character-list, the store client (`head_object`,
`put_object`, `list_objects`, `delete_object`) is modelled as an
environment of per-key behaviours together with a trace of issued calls,
and each top-level Python function becomes a Lean function over those.
-/

namespace R2

/-! ## Python string primitives, modelled on `List Char` -/

/-- Python `s.replace(old, new)` for single-character `old`/`new`:
character-wise substitution. -/
def pyReplaceChar (old new : Char) (s : List Char) : List Char :=
  s.map (fun c => if c == old then new else c)

/-- Boolean prefix test on character lists. -/
def isPrefixB : List Char → List Char → Bool
  | [], _ => true
  | _ :: _, [] => false
  | a :: as, b :: bs => a == b && isPrefixB as bs

/-- Python's substring containment test `sub in s`. -/
def isInfixB (sub : List Char) : List Char → Bool
  | [] => isPrefixB sub []
  | l@(_ :: rest) => isPrefixB sub l || isInfixB sub rest

/-- Python `s.strip(c)` for a single character `c`: remove every leading
and trailing occurrence of `c`. -/
def stripChar (c : Char) (l : List Char) : List Char :=
  (((l.dropWhile (· == c)).reverse.dropWhile (· == c)).reverse)

/-- Python `path.split('/')`: note `''.split('/') == ['']`, so the result
is never the empty list. -/
def splitSlash : List Char → List (List Char)
  | [] => [[]]
  | c :: rest =>
    match splitSlash rest with
    | [] => [[]]
    | h :: t => if c == '/' then [] :: h :: t else (c :: h) :: t

/-- Python `'/'.join(components)`. -/
def joinSlash : List (List Char) → List Char
  | [] => []
  | [x] => x
  | x :: y :: t => x ++ '/' :: joinSlash (y :: t)

/-- Python `os.path.basename` on a forward-slash path: the part after the
last `'/'`. -/
def basenameL (l : List Char) : List Char :=
  ((l.reverse.takeWhile (fun c => !(c == '/'))).reverse)

/-- The ignore marker tested by `upload_file`. -/
def dsStore : List Char := ".DS_Store".data

/-! ## Store model -/

/-- Metadata returned by a successful `head_object`: the transport-reported
ETag (a quoted digest string for single-part uploads). -/
structure RemoteMeta where
  eTag : String
  deriving DecidableEq, Repr

/-- Result of a `head_object` probe at one key.  `absent` stands for the
404 `ClientError` `head_object` raises when no object exists;
`transportErr` for any other `ClientError` (permissions, network).
`file_exists` cannot distinguish the two: it catches every `ClientError`
and returns `False`. -/
inductive HeadR
  | found (meta : RemoteMeta)
  | absent
  | transportErr
  deriving DecidableEq, Repr

/-- One call issued against the S3 client, in issue order. -/
inductive StoreCall
  | head (key : String)
  | put (key : String) (contentType : Option String)
  | listObjects (pfx : String)
  | deleteObject (key : String)
  deriving DecidableEq, Repr

/-- Store behaviour visible to one `upload_file` call: what `head_object`
answers at each key, and whether `put_object` at each key succeeds
(`false` = raises `ClientError`). -/
structure UploadEnv where
  headRes : String → HeadR
  putOk : String → Bool

/-- Outcome of one `upload_file` call, read off the code's print/return
paths. -/
inductive Outcome
  | ignored
  | skipped
  | created
  | updated
  | failed
  deriving DecidableEq, Repr

/-- The object key computed by `upload_file`:
`relative_path.replace("\\", "/")`. -/
def uploadKey (relativePath : String) : String :=
  ⟨pyReplaceChar '\\' '/' relativePath.data⟩

/-- `upload_file(cloudflare_r2, file_path, relative_path)` from
`cloudflare_r2_upload.py`, over an abstract store environment.
`localMd5` abstracts `calculate_md5(file_path)` (a pure digest of the
file's bytes); `guessType` abstracts `mimetypes.guess_type(file_path)[0]`.
Returns the outcome and the trace of store calls issued:
- `".DS_Store" in file_path` → return immediately, no store call;
- `file_exists` issues one head; a `ClientError` there (absence or
  transport) yields `False` and the create path;
- on `True` a second head fetches the ETag, quotes are stripped, and a
  digest match returns without a put;
- otherwise `put_object` is issued once; a `ClientError` from it is
  caught by the outer handler (`failed`). -/
def upload_file (env : UploadEnv) (filePath relativePath localMd5 : String)
    (guessType : String → Option String) : Outcome × List StoreCall :=
  if isInfixB dsStore filePath.data then
    (.ignored, [])
  else
    let key := uploadKey relativePath
    match env.headRes key with
    | .found meta =>
      let remoteMd5 : String := ⟨stripChar '"' meta.eTag.data⟩
      if localMd5 == remoteMd5 then
        (.skipped, [.head key, .head key])
      else
        let mime := guessType filePath
        if env.putOk key then
          (.updated, [.head key, .head key, .put key mime])
        else
          (.failed, [.head key, .head key, .put key mime])
    | .absent =>
      let mime := guessType filePath
      if env.putOk key then
        (.created, [.head key, .put key mime])
      else
        (.failed, [.head key, .put key mime])
    | .transportErr =>
      let mime := guessType filePath
      if env.putOk key then
        (.created, [.head key, .put key mime])
      else
        (.failed, [.head key, .put key mime])

/-- Whether a store call is a `put_object`. -/
def isPut : StoreCall → Bool
  | .put _ _ => true
  | _ => false

/-- Number of `put_object` calls in a trace. -/
def countPuts (tr : List StoreCall) : Nat :=
  (tr.filter isPut).length

/-- The directory-walk half of `upload`: `os.walk` yields the files (here:
`(file_path, relative_path)` pairs, each relative path already computed by
`os.path.relpath` against `dirname(base_path)`), and `upload_file` is
invoked once per file.  `digests` gives each file's `calculate_md5`. -/
def uploadWalk (env : UploadEnv) (files : List (String × String))
    (digests : String → String) (guessType : String → Option String) :
    List (Outcome × List StoreCall) :=
  files.map fun fp => upload_file env fp.1 fp.2 (digests fp.1) guessType

/-! ## Stateful store model (for the idempotence claim)

The store contract assumed by the spec: the ETag reported for an object
written by a single-part `put_object` is the MD5 hex digest of the body,
wrapped in double quotes.  The digest function itself is abstract
(`md5hex`); the model only uses that it is a function of the body. -/

/-- Bucket contents: association list key ↦ body (most recent put first). -/
abbrev Store := List (String × String)

/-- Look up the current body stored at a key. -/
def lookupStore (st : Store) (k : String) : Option String :=
  match st with
  | [] => none
  | (k', b) :: rest => if k' == k then some b else lookupStore rest k

/-- `put_object`: (over)write the body at a key. -/
def putStore (st : Store) (k b : String) : Store := (k, b) :: st

/-- The ETag the store reports for a body, per the external contract:
the quoted digest. -/
def etagOf (md5hex : String → String) (b : String) : String :=
  "\"" ++ md5hex b ++ "\""

/-- `upload_file` run against the live store: `head_object` answers from
the bucket contents with the contract ETag, `put_object` succeeds and
updates the bucket.  Returns the new bucket, the outcome and the trace. -/
def runUploadFile (md5hex : String → String) (st : Store)
    (filePath relativePath body : String)
    (guessType : String → Option String) :
    Store × Outcome × List StoreCall :=
  if isInfixB dsStore filePath.data then
    (st, .ignored, [])
  else
    let key := uploadKey relativePath
    let localMd5 := md5hex body
    match lookupStore st key with
    | some b =>
      let remoteMd5 : String := ⟨stripChar '"' (etagOf md5hex b).data⟩
      if localMd5 == remoteMd5 then
        (st, .skipped, [.head key, .head key])
      else
        let mime := guessType filePath
        (putStore st key body, .updated, [.head key, .head key, .put key mime])
    | none =>
      let mime := guessType filePath
      (putStore st key body, .created, [.head key, .put key mime])

/-! ## Delete models -/

/-- The listing `list_objects(Bucket=…, Prefix=pfx)` returns: `none` when
the response dictionary has no `'Contents'` entry (the empty listing),
`some keys` otherwise. -/
def Listing := String → Option (List String)

/-- `delete(cloudflare_r2, path)` from `cloudflare_r2_delete.py`, as the
trace of store calls it issues.  `path.split('/')` never yields `[]`, and
its last component is `''` exactly when the path ends in `'/'` or is
empty; that selects the folder branch: pop the last component, rejoin
with `'/'`, list under that prefix, delete each listed key (`.get`
tolerates a missing `'Contents'`), then delete `prefix + '/'`. -/
def deleteScript (path : String) (listing : Listing) : List StoreCall :=
  let comps := splitSlash path.data
  match comps.getLast? with
  | some [] =>
    let folder : String := ⟨joinSlash comps.dropLast⟩
    let objs := (listing folder).getD []
    .listObjects folder :: (objs.map .deleteObject ++ [.deleteObject (folder ++ "/")])
  | _ => [.deleteObject path]

/-- Python exception kinds reaching the embedded fragments. -/
inductive PyError
  | typeError
  | valueError
  | keyError
  deriving DecidableEq, Repr

/-- `CloudflareR2.delete(self, path)` from `main.py`: identical to
`deleteScript` except that the folder branch indexes `objects['Contents']`
directly, so a listing response without a `'Contents'` entry raises
`KeyError` after the listing call, before any delete.  Returns the trace
of calls issued up to the point of return or raise, and the uncaught
exception if one is raised. -/
def deleteMain (path : String) (listing : Listing) :
    List StoreCall × Option PyError :=
  let comps := splitSlash path.data
  match comps.getLast? with
  | some [] =>
    let folder : String := ⟨joinSlash comps.dropLast⟩
    match listing folder with
    | none => ([.listObjects folder], some .keyError)
    | some objs =>
      (.listObjects folder ::
        (objs.map .deleteObject ++ [.deleteObject (folder ++ "/")]), none)
  | _ => ([.deleteObject path], none)

/-! ## The standalone delete script's `main` (for the constructor bug) -/

/-- The keyword parameters accepted by `CloudflareR2.__init__` in
`cloudflare_r2.py`: the signature is `def __init__(self) -> None`, so no
keyword besides `self` is accepted. -/
def cloudflareR2InitKwParams : List String := []

/-- Python keyword-argument binding for a call: every passed keyword must
name an accepted parameter, otherwise the call raises `TypeError` before
the body runs. -/
def bindKwargs (accepted passed : List String) : Option PyError :=
  if passed.all (fun k => accepted.contains k) then none else some .typeError

/-- The five environment variables `CloudflareR2.__init__` reads. -/
structure EnvVars where
  accountId : Option String
  accessKeyId : Option String
  secretAccessKey : Option String
  bucketName : Option String
  endpointUrl : Option String

/-- Python truthiness of an `Optional[str]`: `None` and `''` are falsy. -/
def truthy : Option String → Bool
  | none => false
  | some s => !(s == "")

/-- The body of `CloudflareR2.__init__`: read the five variables and raise
`ValueError` unless all are truthy. -/
def cloudflareR2InitBody (e : EnvVars) : Except PyError Unit :=
  if truthy e.accountId && truthy e.accessKeyId && truthy e.secretAccessKey
      && truthy e.bucketName && truthy e.endpointUrl then
    .ok ()
  else
    .error .valueError

/-- Constructing `CloudflareR2(**kwargs)`: keyword binding against the
declared parameter list happens first; only if it succeeds does the body
run. -/
def constructCloudflareR2 (e : EnvVars) (kwargs : List String) :
    Except PyError Unit :=
  match bindKwargs cloudflareR2InitKwParams kwargs with
  | some err => .error err
  | none => cloudflareR2InitBody e

/-- `main()` of `cloudflare_r2_delete.py`: inside `try`, construct
`CloudflareR2(bucket_name=args.bucket_name)` then call `delete`; the
`except` clause catches only `ValueError` (handled: message printed, no
store call).  Returns the uncaught exception, if any, and the trace of
store calls issued. -/
def deleteScriptMain (e : EnvVars) (path : String) (listing : Listing) :
    Option PyError × List StoreCall :=
  match constructCloudflareR2 e ["bucket_name"] with
  | .error .valueError => (none, [])
  | .error err => (some err, [])
  | .ok _ => (none, deleteScript path listing)

/-! ## Helper lemmas about the string primitives -/

theorem dropWhile_eq_self_of_not (p : Char → Bool) (l : List Char)
    (h : ∀ c ∈ l, p c = false) : l.dropWhile p = l := by
  cases l with
  | nil => rfl
  | cons x xs => simp [List.dropWhile_cons, h x (by simp)]

/-- Unfolding equation of `splitSlash` on a cons. -/
theorem splitSlash_cons (c : Char) (l : List Char) :
    splitSlash (c :: l) =
      match splitSlash l with
      | [] => [[]]
      | h :: t => if c == '/' then [] :: h :: t else (c :: h) :: t := rfl

/-- Stripping a wrapping character from `ch ++ d ++ ch` recovers `d`
when `d` itself contains no occurrence of `ch`. -/
theorem stripChar_wrap (ch : Char) (d : List Char)
    (h : ∀ c ∈ d, c ≠ ch) : stripChar ch (ch :: (d ++ [ch])) = d := by
  have hd : ∀ c ∈ d, (c == ch) = false := by
    intro c hc
    simpa using h c hc
  cases d with
  | nil => simp [stripChar, List.dropWhile_cons]
  | cons x xs =>
    have h1 : List.dropWhile (fun a => a == ch) (ch :: ((x :: xs) ++ [ch]))
        = x :: (xs ++ [ch]) := by
      rw [List.cons_append, List.dropWhile_cons, if_pos (by simp),
        List.dropWhile_cons, if_neg (by simp [hd x (by simp)])]
    have h2 : (x :: (xs ++ [ch])).reverse = ch :: (xs.reverse ++ [x]) := by
      simp
    have h3 : List.dropWhile (fun a => a == ch) (ch :: (xs.reverse ++ [x]))
        = xs.reverse ++ [x] := by
      rw [List.dropWhile_cons, if_pos (by simp)]
      refine dropWhile_eq_self_of_not _ _ ?_
      intro c hc
      rcases List.mem_append.1 hc with hc' | hc'
      · exact hd c (List.mem_cons_of_mem _ (List.mem_reverse.1 hc'))
      · have hcx : c = x := by simpa using hc'
        subst hcx
        exact hd c (by simp)
    show (((ch :: ((x :: xs) ++ [ch])).dropWhile (fun a => a == ch)).reverse.dropWhile
        (fun a => a == ch)).reverse = x :: xs
    rw [h1, h2, h3]
    simp

theorem isPrefixB_self (l : List Char) : isPrefixB l l = true := by
  induction l with
  | nil => rfl
  | cons a as ih => simp [isPrefixB, ih]

/-- A suffix is found by the substring test. -/
theorem isInfixB_suffix (pre sub : List Char) :
    isInfixB sub (pre ++ sub) = true := by
  induction pre with
  | nil =>
    cases sub with
    | nil => rfl
    | cons a as =>
      show isInfixB (a :: as) (a :: as) = true
      have hstep : isInfixB (a :: as) (a :: as)
          = (isPrefixB (a :: as) (a :: as) || isInfixB (a :: as) as) := rfl
      rw [hstep, isPrefixB_self, Bool.true_or]
  | cons c cs ih =>
    show isInfixB sub (c :: (cs ++ sub)) = true
    have hstep : isInfixB sub (c :: (cs ++ sub))
        = (isPrefixB sub (c :: (cs ++ sub)) || isInfixB sub (cs ++ sub)) := rfl
    rw [hstep, ih, Bool.or_true]

/-- The basename is a suffix of the path. -/
theorem basenameL_suffix (l : List Char) :
    ∃ pre, l = pre ++ basenameL l := by
  refine ⟨(l.reverse.dropWhile (fun c => !(c == '/'))).reverse, ?_⟩
  unfold basenameL
  rw [← List.reverse_append, List.takeWhile_append_dropWhile, List.reverse_reverse]

theorem splitSlash_ne_nil (l : List Char) : splitSlash l ≠ [] := by
  cases l with
  | nil => simp [splitSlash]
  | cons c rest =>
    rw [splitSlash_cons]
    cases splitSlash rest with
    | nil => simp
    | cons h t =>
      by_cases hc : c == '/'
      · simp [hc]
      · simp [hc]

/-- `'/'.join` undoes `split('/')`. -/
theorem joinSlash_splitSlash (l : List Char) :
    joinSlash (splitSlash l) = l := by
  induction l with
  | nil => rfl
  | cons c rest ih =>
    rw [splitSlash_cons]
    cases hs : splitSlash rest with
    | nil => exact absurd hs (splitSlash_ne_nil rest)
    | cons h t =>
      rw [hs] at ih
      by_cases hc : c == '/'
      · have hc' : c = '/' := by simpa using hc
        subst hc'
        simp only [hc, if_true, joinSlash]
        simpa using ih
      · simp only [hc, if_false, Bool.false_eq_true]
        cases t with
        | nil => simpa [joinSlash] using ih
        | cons y ys =>
          simp only [joinSlash] at ih ⊢
          rw [List.cons_append, ih]

/-- Appending a trailing slash appends an empty component to the split. -/
theorem splitSlash_concat_slash (l : List Char) :
    splitSlash (l ++ ['/']) = splitSlash l ++ [[]] := by
  induction l with
  | nil => rfl
  | cons c rest ih =>
    rw [List.cons_append, splitSlash_cons, ih, splitSlash_cons]
    cases hs : splitSlash rest with
    | nil => exact absurd hs (splitSlash_ne_nil rest)
    | cons h t =>
      by_cases hc : c == '/'
      · simp [hc]
      · simp [hc]

/-- A path ending in a non-slash character has a nonempty last split
component, itself ending in that character. -/
theorem splitSlash_concat_nonslash (l : List Char) (c : Char) (hc : c ≠ '/') :
    ∃ x, (splitSlash (l ++ [c])).getLast? = some (x ++ [c]) := by
  have hc' : (c == '/') = false := by simpa using hc
  induction l with
  | nil =>
    refine ⟨[], ?_⟩
    simp [splitSlash_cons, splitSlash, hc']
  | cons a rest ih =>
    obtain ⟨x, hx⟩ := ih
    rw [List.cons_append, splitSlash_cons]
    cases hs : splitSlash (rest ++ [c]) with
    | nil => exact absurd hs (splitSlash_ne_nil _)
    | cons h t =>
      rw [hs] at hx
      by_cases ha : a == '/'
      · refine ⟨x, ?_⟩
        simpa [ha, List.getLast?_cons_cons] using hx
      · cases t with
        | nil =>
          have hx' : h = x ++ [c] := by simpa using hx
          refine ⟨a :: x, ?_⟩
          simp [ha, hx']
        | cons y ys =>
          refine ⟨x, ?_⟩
          simp only [ha, if_false, Bool.false_eq_true, List.getLast?_cons_cons]
          simpa [List.getLast?_cons_cons] using hx

theorem lookupStore_putStore_self (st : Store) (k b : String) :
    lookupStore (putStore st k b) k = some b := by
  simp [lookupStore, putStore]

/-- Stripping the quotes from the contract ETag of a body recovers the
digest, provided the digest itself contains no quote character (true of
hexadecimal digests). -/
theorem strip_etagOf (md5hex : String → String) (b : String)
    (hq : '"' ∉ (md5hex b).data) :
    (⟨stripChar '"' (etagOf md5hex b).data⟩ : String) = md5hex b := by
  have h1 : (etagOf md5hex b).data = '"' :: ((md5hex b).data ++ ['"']) := by
    show ("\"" ++ md5hex b ++ "\"").data = '"' :: ((md5hex b).data ++ ['"'])
    rw [String.data_append, String.data_append]
    simp
  rw [h1, stripChar_wrap _ _ (fun c hc => by rintro rfl; exact hq hc)]

/-! ## Claim theorems -/

/-- **C1**: for every single-file upload not skipped by the ignore rule,
`upload_file` implements the reconciliation decision as a function of the
local MD5 digest and the remote object's metadata: if no remote object
exists at the key exactly one put is issued (Create); if a remote object
exists and its quote-stripped ETag equals the local digest no put is
issued (Skip); if the digests differ exactly one put is issued
(Update). -/
theorem upload_file_reconciliation (env : UploadEnv)
    (filePath relativePath localMd5 : String)
    (guessType : String → Option String)
    (hIgn : isInfixB dsStore filePath.data = false) :
    (env.headRes (uploadKey relativePath) = .absent →
      countPuts (upload_file env filePath relativePath localMd5 guessType).2 = 1 ∧
      (env.putOk (uploadKey relativePath) = true →
        (upload_file env filePath relativePath localMd5 guessType).1 = .created)) ∧
    (∀ m, env.headRes (uploadKey relativePath) = .found m →
      (⟨stripChar '"' m.eTag.data⟩ : String) = localMd5 →
      countPuts (upload_file env filePath relativePath localMd5 guessType).2 = 0 ∧
      (upload_file env filePath relativePath localMd5 guessType).1 = .skipped) ∧
    (∀ m, env.headRes (uploadKey relativePath) = .found m →
      (⟨stripChar '"' m.eTag.data⟩ : String) ≠ localMd5 →
      countPuts (upload_file env filePath relativePath localMd5 guessType).2 = 1 ∧
      (env.putOk (uploadKey relativePath) = true →
        (upload_file env filePath relativePath localMd5 guessType).1 = .updated)) := by
  refine ⟨?_, ?_, ?_⟩
  · intro habs
    constructor
    · cases hp : env.putOk (uploadKey relativePath) <;>
        simp [upload_file, hIgn, habs, hp, countPuts, isPut]
    · intro hp
      simp [upload_file, hIgn, habs, hp]
  · intro m hm heq
    subst heq
    simp [upload_file, hIgn, hm, countPuts, isPut]
  · intro m hm hne
    have hne' : localMd5 ≠ (⟨stripChar '"' m.eTag.data⟩ : String) :=
      fun e => hne e.symm
    constructor
    · cases hp : env.putOk (uploadKey relativePath) <;>
        simp [upload_file, hIgn, hm, hne', hp, countPuts, isPut]
    · intro hp
      simp [upload_file, hIgn, hm, hne', hp]

/-- Witness for C1: a fresh key receives exactly one put and the outcome
is Create. -/
theorem upload_file_reconciliation_witness :
    countPuts (upload_file ⟨fun _ => .absent, fun _ => true⟩
      "a.txt" "a.txt" "d0" (fun _ => none)).2 = 1 ∧
    (upload_file ⟨fun _ => .absent, fun _ => true⟩
      "a.txt" "a.txt" "d0" (fun _ => none)).1 = .created :=
  ⟨((upload_file_reconciliation ⟨fun _ => .absent, fun _ => true⟩
      "a.txt" "a.txt" "d0" (fun _ => none) (by decide)).1 rfl).1,
   ((upload_file_reconciliation ⟨fun _ => .absent, fun _ => true⟩
      "a.txt" "a.txt" "d0" (fun _ => none) (by decide)).1 rfl).2 rfl⟩

/-- **C2**: under the store contract that the ETag of an object written by
put equals the quoted MD5 digest of the body, uploading the same
unchanged file twice to the same key yields Skip on the second call and
no put is issued the second time. -/
theorem upload_twice_skips (md5hex : String → String) (st : Store)
    (filePath relativePath body : String) (guessType : String → Option String)
    (hIgn : isInfixB dsStore filePath.data = false)
    (hq : '"' ∉ (md5hex body).data) :
    (runUploadFile md5hex
        (runUploadFile md5hex st filePath relativePath body guessType).1
        filePath relativePath body guessType).2.1 = .skipped ∧
    countPuts (runUploadFile md5hex
        (runUploadFile md5hex st filePath relativePath body guessType).1
        filePath relativePath body guessType).2.2 = 0 := by
  cases hl : lookupStore st (uploadKey relativePath) with
  | none =>
    have h1 : (runUploadFile md5hex st filePath relativePath body guessType).1
        = putStore st (uploadKey relativePath) body := by
      simp [runUploadFile, hIgn, hl]
    rw [h1]
    simp [runUploadFile, hIgn, lookupStore_putStore_self,
      strip_etagOf md5hex body hq, countPuts, isPut]
  | some b =>
    by_cases hc :
        md5hex body = (⟨stripChar '"' (etagOf md5hex b).data⟩ : String)
    · have h1 : (runUploadFile md5hex st filePath relativePath body guessType).1
          = st := by
        simp [runUploadFile, hIgn, hl, hc]
      rw [h1]
      simp [runUploadFile, hIgn, hl, hc, countPuts, isPut]
    · have h1 : (runUploadFile md5hex st filePath relativePath body guessType).1
          = putStore st (uploadKey relativePath) body := by
        simp [runUploadFile, hIgn, hl, hc]
      rw [h1]
      simp [runUploadFile, hIgn, lookupStore_putStore_self,
        strip_etagOf md5hex body hq, countPuts, isPut]

/-- Witness for C2 at a concrete digest function, bucket and file. -/
theorem upload_twice_skips_witness :
    (runUploadFile (fun _ => "abc")
        (runUploadFile (fun _ => "abc") [] "a.txt" "a.txt" "hello"
          (fun _ => none)).1
        "a.txt" "a.txt" "hello" (fun _ => none)).2.1 = .skipped ∧
    countPuts (runUploadFile (fun _ => "abc")
        (runUploadFile (fun _ => "abc") [] "a.txt" "a.txt" "hello"
          (fun _ => none)).1
        "a.txt" "a.txt" "hello" (fun _ => none)).2.2 = 0 :=
  upload_twice_skips (fun _ => "abc") [] "a.txt" "a.txt" "hello"
    (fun _ => none) (by decide) (by decide)

/-- **C4 (counterexample)**: a `ClientError` raised during the head probe
is swallowed by `file_exists` (which returns `False` on any
`ClientError`), so the file is treated as absent and written as a fresh
create — no failure is reported for it, refuting the claim that every
transport failure in the head probe is "caught and reported". -/
theorem upload_head_error_unreported :
    upload_file ⟨fun _ => .transportErr, fun _ => true⟩
      "f.txt" "f.txt" "d0" (fun _ => none)
      = (.created, [.head "f.txt", .put "f.txt" none]) ∧
    Outcome.created ≠ Outcome.failed := by decide

/-- **C4 (amended)**: per-file isolation in the directory walk: the walk
produces exactly one outcome per file; each file's outcome is a function
of the store's behaviour at that file's own key alone (so a rejection of
one file's write cannot change any sibling's outcome); and a
`ClientError` raised by the put is caught inside that `upload_file` call
and reported as a failure for that file only. -/
theorem upload_walk_isolation :
    (∀ (env : UploadEnv) (files : List (String × String))
        (digests : String → String) (g : String → Option String),
        (uploadWalk env files digests g).length = files.length) ∧
    (∀ (env : UploadEnv) (files : List (String × String))
        (digests : String → String) (g : String → Option String) (i : Nat),
        (uploadWalk env files digests g)[i]? =
          (files[i]?).map (fun fp => upload_file env fp.1 fp.2 (digests fp.1) g)) ∧
    (∀ (env env' : UploadEnv) (fp rp d : String) (g : String → Option String),
        env.headRes (uploadKey rp) = env'.headRes (uploadKey rp) →
        env.putOk (uploadKey rp) = env'.putOk (uploadKey rp) →
        upload_file env fp rp d g = upload_file env' fp rp d g) ∧
    (∀ (env : UploadEnv) (fp rp d : String) (g : String → Option String),
        env.putOk (uploadKey rp) = false →
        countPuts (upload_file env fp rp d g).2 ≠ 0 →
        (upload_file env fp rp d g).1 = .failed) := by
  refine ⟨?_, ?_, ?_, ?_⟩
  · intro env files digests g
    simp [uploadWalk]
  · intro env files digests g i
    simp [uploadWalk]
  · intro env env' fp rp d g h1 h2
    simp only [upload_file, h1, h2]
  · intro env fp rp d g hput hcount
    by_cases hi : isInfixB dsStore fp.data = true
    · exfalso
      apply hcount
      simp [upload_file, hi, countPuts]
    · rw [Bool.not_eq_true] at hi
      cases hh : env.headRes (uploadKey rp) with
      | found m =>
        by_cases hc : d = (⟨stripChar '"' m.eTag.data⟩ : String)
        · exfalso
          apply hcount
          simp [upload_file, hi, hh, hc, countPuts, isPut]
        · simp [upload_file, hi, hh, hc, hput]
      | absent => simp [upload_file, hi, hh, hput]
      | transportErr => simp [upload_file, hi, hh, hput]

/-- Witness for the amended C4: with a store that rejects every put, a
file's outcome agrees between two such stores and the put rejection is
reported as a failure. -/
theorem upload_walk_isolation_witness :
    upload_file ⟨fun _ => .absent, fun _ => false⟩ "b.bin" "b.bin" "d1"
        (fun _ => none)
      = upload_file ⟨fun _ => .absent, fun _ => false⟩ "b.bin" "b.bin" "d1"
        (fun _ => none) ∧
    (upload_file ⟨fun _ => .absent, fun _ => false⟩ "b.bin" "b.bin" "d1"
        (fun _ => none)).1 = .failed :=
  ⟨upload_walk_isolation.2.2.1 ⟨fun _ => .absent, fun _ => false⟩
      ⟨fun _ => .absent, fun _ => false⟩ "b.bin" "b.bin" "d1"
      (fun _ => none) rfl rfl,
   upload_walk_isolation.2.2.2 ⟨fun _ => .absent, fun _ => false⟩
      "b.bin" "b.bin" "d1" (fun _ => none) rfl (by decide)⟩

/-- **C5**: a file whose name yields no guessable content type is still
written: `upload_file` issues the put of the body under the key with
content type `none` and the write succeeds (Create on a fresh key,
Update on a changed one). -/
theorem upload_no_mime_still_puts (env : UploadEnv)
    (fp rp d : String) (g : String → Option String)
    (hg : g fp = none)
    (hIgn : isInfixB dsStore fp.data = false)
    (hput : env.putOk (uploadKey rp) = true) :
    (env.headRes (uploadKey rp) = .absent →
      upload_file env fp rp d g
        = (.created, [.head (uploadKey rp), .put (uploadKey rp) none])) ∧
    (∀ m, env.headRes (uploadKey rp) = .found m →
      (⟨stripChar '"' m.eTag.data⟩ : String) ≠ d →
      upload_file env fp rp d g
        = (.updated, [.head (uploadKey rp), .head (uploadKey rp),
            .put (uploadKey rp) none])) := by
  constructor
  · intro hh
    simp [upload_file, hIgn, hh, hput, hg]
  · intro m hh hne
    have hne' : d ≠ (⟨stripChar '"' m.eTag.data⟩ : String) := fun e => hne e.symm
    simp [upload_file, hIgn, hh, hne', hput, hg]

/-- Witness for C5: a file with no extension is created with content type
`none`. -/
theorem upload_no_mime_still_puts_witness :
    upload_file ⟨fun _ => .absent, fun _ => true⟩ "noext" "noext" "d2"
        (fun _ => none)
      = (.created, [.head (uploadKey "noext"), .put (uploadKey "noext") none]) :=
  (upload_no_mime_still_puts ⟨fun _ => .absent, fun _ => true⟩ "noext" "noext"
    "d2" (fun _ => none) rfl (by decide) rfl).1 rfl

/-- **C6 (counterexample)**: the ignore test is `".DS_Store" in
file_path` — a substring test on the whole path, not a basename match: a
file whose basename is `img.png`, lying in a directory whose name merely
contains `.DS_Store`, is skipped with no store call, refuting "skips if
and only if the basename matches the ignore list". -/
theorem upload_ignore_not_basename :
    basenameL "x/a.DS_Store.bak/img.png".data ≠ dsStore ∧
    basenameL "x/a.DS_Store.bak/img.png".data = "img.png".data ∧
    upload_file ⟨fun _ => .absent, fun _ => true⟩
      "x/a.DS_Store.bak/img.png" "a.DS_Store.bak/img.png" "d3" (fun _ => none)
      = (.ignored, []) := by decide

/-- **C6 (amended)**: `upload_file` skips a file without issuing any head
or put call if and only if `".DS_Store"` occurs as a substring of the
file path; in particular every file whose basename is `.DS_Store` is
never passed to head or put, and every path without that substring
proceeds to the store probe. -/
theorem upload_ignore_iff_substring (env : UploadEnv)
    (fp rp d : String) (g : String → Option String) :
    ((upload_file env fp rp d g).2 = [] ↔ isInfixB dsStore fp.data = true) ∧
    ((upload_file env fp rp d g).1 = .ignored ↔
      isInfixB dsStore fp.data = true) ∧
    (basenameL fp.data = dsStore → (upload_file env fp rp d g).2 = []) := by
  have hmain : ∀ _ : isInfixB dsStore fp.data = false,
      (upload_file env fp rp d g).2 ≠ [] ∧
      (upload_file env fp rp d g).1 ≠ .ignored := by
    intro hi
    cases hh : env.headRes (uploadKey rp) with
    | found m =>
      by_cases hc : d = (⟨stripChar '"' m.eTag.data⟩ : String)
      · constructor <;> simp [upload_file, hi, hh, hc]
      · cases hp : env.putOk (uploadKey rp) <;> constructor <;>
          simp [upload_file, hi, hh, hc, hp]
    | absent =>
      cases hp : env.putOk (uploadKey rp) <;> constructor <;>
        simp [upload_file, hi, hh, hp]
    | transportErr =>
      cases hp : env.putOk (uploadKey rp) <;> constructor <;>
        simp [upload_file, hi, hh, hp]
  refine ⟨⟨?_, ?_⟩, ⟨?_, ?_⟩, ?_⟩
  · intro he
    by_contra hni
    rw [Bool.not_eq_true] at hni
    exact (hmain hni).1 he
  · intro hi
    simp [upload_file, hi]
  · intro ho
    by_contra hni
    rw [Bool.not_eq_true] at hni
    exact (hmain hni).2 ho
  · intro hi
    simp [upload_file, hi]
  · intro hb
    obtain ⟨pre, hpre⟩ := basenameL_suffix fp.data
    rw [hb] at hpre
    have hi : isInfixB dsStore fp.data = true := by
      rw [hpre]
      exact isInfixB_suffix pre dsStore
    simp [upload_file, hi]

/-- Witness for the amended C6: a file named `.DS_Store` inside a
directory issues no store call. -/
theorem upload_ignore_iff_substring_witness :
    (upload_file ⟨fun _ => .absent, fun _ => true⟩ "d/.DS_Store" "r" "d4"
      (fun _ => none)).2 = [] :=
  (upload_ignore_iff_substring ⟨fun _ => .absent, fun _ => true⟩
    "d/.DS_Store" "r" "d4" (fun _ => none)).2.2 (by decide)

/-- **C7**: key normalization: the key `upload_file` computes from the
relative path (itself the path of the file relative to the parent of the
base path) is that relative path with every backslash replaced by `'/'`
— character `i` of the key is character `i` of the relative path with
`'\\'` mapped to `'/'` — so the produced key never contains a backslash,
and it is the key under which the store is probed. -/
theorem uploadKey_normalization :
    (∀ (rp : String), ∀ c ∈ (uploadKey rp).data, c ≠ '\\') ∧
    (∀ (rp : String) (i : Nat),
      (uploadKey rp).data[i]? =
        (rp.data[i]?).map (fun c => if c == '\\' then '/' else c)) ∧
    (∀ (env : UploadEnv) (fp rp d : String) (g : String → Option String),
      isInfixB dsStore fp.data = false →
      ((upload_file env fp rp d g).2).head? = some (.head (uploadKey rp))) := by
  refine ⟨?_, ?_, ?_⟩
  · intro rp c hc
    simp only [uploadKey, pyReplaceChar, List.mem_map] at hc
    obtain ⟨x, _, hcx⟩ := hc
    by_cases hxb : (x == '\\') = true
    · rw [if_pos hxb] at hcx
      subst hcx
      decide
    · rw [if_neg (by simpa using hxb)] at hcx
      subst hcx
      simpa using hxb
  · intro rp i
    simp [uploadKey, pyReplaceChar]
  · intro env fp rp d g hIgn
    cases hh : env.headRes (uploadKey rp) with
    | found m =>
      by_cases hc : d = (⟨stripChar '"' m.eTag.data⟩ : String)
      · simp [upload_file, hIgn, hh, hc]
      · cases hp : env.putOk (uploadKey rp) <;>
          simp [upload_file, hIgn, hh, hc, hp]
    | absent =>
      cases hp : env.putOk (uploadKey rp) <;> simp [upload_file, hIgn, hh, hp]
    | transportErr =>
      cases hp : env.putOk (uploadKey rp) <;> simp [upload_file, hIgn, hh, hp]

/-- Witness for C7: the backslash in `"a\\b"` becomes `'/'` in the key,
and the store is probed under that key. -/
theorem uploadKey_normalization_witness :
    (uploadKey "a\\b").data[1]? = some '/' ∧
    ((upload_file ⟨fun _ => .absent, fun _ => true⟩ "f" "a\\b" "d5"
      (fun _ => none)).2).head? = some (.head (uploadKey "a\\b")) := by
  constructor
  · rw [uploadKey_normalization.2.1 "a\\b" 1]
    decide
  · exact uploadKey_normalization.2.2 ⟨fun _ => .absent, fun _ => true⟩
      "f" "a\\b" "d5" (fun _ => none) (by decide)

theorem getLast?_append_singleton {α : Type} (l : List α) (a : α) :
    (l ++ [a]).getLast? = some a := by
  induction l with
  | nil => rfl
  | cons x xs ih =>
    cases xs with
    | nil => rfl
    | cons y ys => simpa [List.getLast?_cons_cons] using ih

/-- **C3 (counterexample)**: the empty path does not end in `'/'`, yet
`delete` takes the folder branch for it: `"".split('/') == ['']`, so the
listing is issued with prefix `""` and key `"/"` is deleted, instead of
the single object named `""` being deleted as the claim requires for
every path not ending in `'/'`. -/
theorem delete_empty_path_folder_branch :
    ("" : String).data.getLast? ≠ some '/' ∧
    deleteScript "" (fun _ => some []) ≠ [.deleteObject ""] ∧
    deleteScript "" (fun _ => some []) =
      [.listObjects "", .deleteObject "/"] := by decide

/-- **C3 (amended)**: for every path ending in `'/'`, `delete` strips the
trailing separator to obtain a prefix, issues one listing with that
prefix, deletes every listed object, then deletes the object named
prefix + `'/'` even when the listing returned no objects; for every
NONEMPTY path not ending in `'/'`, it deletes exactly the single object
named by the path (the empty path instead takes the folder branch, see
the counterexample). -/
theorem deleteScript_branches (listing : Listing) :
    (∀ p : List Char, deleteScript ⟨p ++ ['/']⟩ listing =
      .listObjects ⟨p⟩ ::
        (((listing ⟨p⟩).getD []).map .deleteObject ++
          [.deleteObject ((⟨p⟩ : String) ++ "/")])) ∧
    (∀ (l : List Char) (c : Char), c ≠ '/' →
      deleteScript ⟨l ++ [c]⟩ listing = [.deleteObject ⟨l ++ [c]⟩]) := by
  constructor
  · intro p
    have h2 : splitSlash (p ++ ['/']) = splitSlash p ++ [[]] :=
      splitSlash_concat_slash p
    have h3 : (splitSlash p ++ [[]]).getLast? = some [] :=
      getLast?_append_singleton _ _
    have h4 : (splitSlash p ++ [[]]).dropLast = splitSlash p :=
      List.dropLast_concat
    simp only [deleteScript, h2, h3, h4, joinSlash_splitSlash]
  · intro l c hc
    obtain ⟨x, hx⟩ := splitSlash_concat_nonslash l c hc
    cases x with
    | nil =>
      rw [List.nil_append] at hx
      simp only [deleteScript, hx]
    | cons y ys =>
      rw [List.cons_append] at hx
      simp only [deleteScript, hx]

/-- Witness for the amended C3: a one-character path not ending in a
slash deletes exactly that object. -/
theorem deleteScript_branches_witness :
    deleteScript ⟨"a".data ++ ['x']⟩ (fun _ => some []) =
      [.deleteObject ⟨"a".data ++ ['x']⟩] :=
  (deleteScript_branches (fun _ => some [])).2 "a".data 'x' (by decide)

/-- **C8 (counterexample)**: the two delete implementations are not
equivalent on a listing response without a `'Contents'` entry: the
standalone script's `delete` (which uses `.get('Contents', [])`)
completes and still deletes the folder marker, while `main.py`'s
`CloudflareR2.delete` (which indexes `objects['Contents']`) raises
`KeyError` right after the listing call. -/
theorem delete_impls_differ_on_missing_contents :
    deleteMain "images/" (fun _ => none)
      = ([.listObjects "images"], some .keyError) ∧
    deleteScript "images/" (fun _ => none)
      = [.listObjects "images", .deleteObject "images/"] := by decide

/-- **C8 (amended)**: whenever the listing response carries a `'Contents'`
entry, the two delete implementations issue the same sequence of list and
delete calls and neither raises; they differ exactly on a response
without `'Contents'`, where only the `main.py` variant raises. -/
theorem delete_impls_agree (path : String) (listing : Listing)
    (h : ∀ pfx, (listing pfx).isSome) :
    deleteMain path listing = (deleteScript path listing, none) := by
  unfold deleteMain deleteScript
  cases hlast : (splitSlash path.data).getLast? with
  | none => simp [hlast]
  | some l =>
    cases l with
    | nil =>
      obtain ⟨objs, hobj⟩ := Option.isSome_iff_exists.mp
        (h ⟨joinSlash (splitSlash path.data).dropLast⟩)
      simp [hlast, hobj]
    | cons y ys => simp [hlast]

/-- Witness for the amended C8 at a concrete path and a listing with one
object. -/
theorem delete_impls_agree_witness :
    deleteMain "images/" (fun _ => some ["images/a.png"])
      = (deleteScript "images/" (fun _ => some ["images/a.png"]), none) :=
  delete_impls_agree "images/" (fun _ => some ["images/a.png"])
    (fun _ => rfl)

/-- **C9**: every invocation of the standalone delete script's `main`
fails with an uncaught `TypeError` before any store call: it passes the
keyword `bucket_name` to `CloudflareR2.__init__`, whose signature accepts
no parameter besides `self`, and the surrounding handler catches only
`ValueError`, so `delete` is never reached and no store call is
issued. -/
theorem delete_script_main_type_error (e : EnvVars) (path : String)
    (listing : Listing) :
    deleteScriptMain e path listing = (some .typeError, []) := rfl

/-- **C10**: deleting path `"/"` or the empty path takes the folder
branch with the empty prefix: the listing is issued with prefix `""` (so
every object returned for the entire bucket is deleted) and then the key
`"/"` is deleted. -/
theorem delete_root_or_empty (listing : Listing) :
    deleteScript "/" listing =
      .listObjects "" ::
        (((listing "").getD []).map .deleteObject ++ [.deleteObject "/"]) ∧
    deleteScript "" listing =
      .listObjects "" ::
        (((listing "").getD []).map .deleteObject ++ [.deleteObject "/"]) := by
  constructor <;> rfl

end R2

